import Mathlib

/-!
Verification development for the pylon DC optimal power flow package.

The definitions below are a shallow embedding, over exact rational
arithmetic, of the Python sources `pylon/dc_opf.py`, `pylon/pdipm.py` and
`pylon/ud_opf.py`.  cvxopt dense/sparse matrices are represented as
`List (List ℚ)` (a list of rows) and vectors as `List ℚ`.  Python
exceptions are represented by `Except`.  The network data classes
(`Bus`, `Branch`, `Generator`, `Network`) are not part of the sources and
are modelled from the specification, keeping exactly the attributes the
embedded routines read and write.
-/

namespace Pylon

/-! ### Data model

Modelled from the spec: buses, branches and generators with the attributes
read by `dc_opf.py`, plus the post-solve result fields it writes.  Bus
references on a branch are represented by the index of the bus in the
network's connected-bus list (the source resolves object references with
`buses.index(...)`, which yields exactly this index because the model
objects compare by identity).  The network handed to the DC OPF routine
carries its connected buses and online branches, and each bus lists its
online generators; the online-generator view enumerates them bus-major,
which is the enumeration order `_build_active_power_flow_equations`
assumes. -/

inductive CostModel
  | polynomial
  | piecewiseLinear
deriving DecidableEq

/-- Generator record.  Field order: cost_model, p_min_bid, p_max_bid,
p_cost, pwl_points, cost_coeffs (quadratic, linear, constant), then the
result fields p, p_despatch, mu_p_min, mu_p_max, mu_q_min, mu_q_max. -/
structure Generator where
  cost_model : CostModel
  p_min_bid : ℚ
  p_max_bid : ℚ
  p_cost : ℚ
  pwl_points : List (ℚ × ℚ)
  cost_coeffs : ℚ × ℚ × ℚ
  p : ℚ
  p_despatch : ℚ
  mu_p_min : ℚ
  mu_p_max : ℚ
  mu_q_min : ℚ
  mu_q_max : ℚ
deriving DecidableEq

/-- Bus record.  Field order: v_phase_guess, p_supply, p_demand, g_shunt,
slack, generators, then the result fields v_amplitude, v_phase, p_lambda,
q_lambda, mu_v_min, mu_v_max. -/
structure Bus where
  v_phase_guess : ℚ
  p_supply : ℚ
  p_demand : ℚ
  g_shunt : ℚ
  slack : Bool
  generators : List Generator
  v_amplitude : ℚ
  v_phase : ℚ
  p_lambda : ℚ
  q_lambda : ℚ
  mu_v_min : ℚ
  mu_v_max : ℚ
deriving DecidableEq

/-- Branch record.  Field order: source_bus, target_bus, x, phase_shift,
s_max, then the result fields p_source, p_target, q_source, q_target,
mu_s_source, mu_s_target. -/
structure Branch where
  source_bus : ℕ
  target_bus : ℕ
  x : ℚ
  phase_shift : ℚ
  s_max : ℚ
  p_source : ℚ
  p_target : ℚ
  q_source : ℚ
  q_target : ℚ
  mu_s_source : ℚ
  mu_s_target : ℚ
deriving DecidableEq

/-- Network record: system power base, connected buses, online branches. -/
structure Network where
  base_mva : ℚ
  buses : List Bus
  branches : List Branch
deriving DecidableEq

instance : Inhabited Generator :=
  ⟨⟨CostModel.polynomial, 0, 0, 0, [], (0, 0, 0), 0, 0, 0, 0, 0, 0⟩⟩

instance : Inhabited Bus :=
  ⟨⟨0, 0, 0, 0, false, [], 0, 0, 0, 0, 0, 0⟩⟩

instance : Inhabited Branch :=
  ⟨⟨0, 0, 0, 0, 0, 0, 0, 0, 0, 0, 0⟩⟩

/-- Modelled from the spec: the derived online-generator view of the
network, enumerated bus-major (the order the formulator's incidence loop
assumes). -/
def Network.online_generators (net : Network) : List Generator :=
  (net.buses.map Bus.generators).flatten

/-- Cost models of the online generators, in enumeration order
(`[g.cost_model for g in generators]`). -/
def costModels (net : Network) : List CostModel :=
  net.online_generators.map Generator.cost_model

/-! ### Phase shift injection vectors (`_build_theta_inj_source`,
`_build_theta_inj_bus`) -/

/-- Rational value standing in for the float constant `math.pi` used by
the source (the embedding computes exactly with this rational). -/
def mathPi : ℚ := 3.141592653589793

/-- The per-branch values the source appends to its `susc` list: the
branch reactance `branch.x` itself when it is nonzero, and `1e12`
otherwise.  (This is the list the surrounding code treats as the series
susceptances.) -/
def susceptanceList (branches : List Branch) : List ℚ :=
  branches.map (fun branch => if branch.x ≠ 0 then branch.x else 1000000000000)

/-- Source-end quiescent phase shift injections: elementwise product of
the `susc` list with the angles `-e.phase_shift * pi / 180`. -/
def buildThetaInjSource (branches : List Branch) : List ℚ :=
  List.zipWith (fun b a => b * a) (susceptanceList branches)
    (branches.map (fun e => -e.phase_shift * mathPi / 180))

/-- Modelled from the spec: the per-branch quiescent injection the
specification describes, `-b * shift_in_radians` with series susceptance
`b = 1/x` (refinement comparison target for the source-end injection). -/
def specThetaInjSource (branches : List Branch) : List ℚ :=
  branches.map (fun e => -(1 / e.x) * (e.phase_shift * mathPi / 180))

/-- Bus-aggregated phase shift injections: for each bus, the sum of the
source-end injections of branches sourced there minus those of branches
targeted there (the incidence-matrix product in `_build_theta_inj_bus`). -/
def buildThetaInjBus (net : Network) : List ℚ :=
  let injs := List.zip net.branches (buildThetaInjSource net.branches)
  (List.range net.buses.length).map (fun i =>
    (injs.map (fun p =>
      (if p.1.source_bus = i then p.2 else 0) -
      (if p.1.target_bus = i then p.2 else 0))).sum)

/-! ### Unit decommitment (`ud_opf.py`) -/

/-- Python's built-in `max` on a list (`None` on the empty list, where
Python raises). -/
def pyMax : List ℚ → Option ℚ
  | [] => none
  | h :: t => some (t.foldl max h)

/-- The candidate index list `[x.index(v) for v in x if v == value]` built
by `fair_max`: for every element equal to the maximum, the index of the
FIRST occurrence of that value (`x.index` always finds the first). -/
def maxIdxList (x : List ℚ) (value : ℚ) : List ℕ :=
  (x.filter (fun v => decide (v = value))).map
    (fun v => x.findIdx (fun w => decide (w = v)))

/-- The `fair_max` function.  `random.choice` over the candidate list is
modelled by selecting the `draw mod length`-th element for an arbitrary
draw: exactly the elements of the list are selectable, each under some
draw. -/
def fair_max (x : List ℚ) (draw : ℕ) : Option (ℕ × ℚ) :=
  match pyMax x with
  | none => none
  | some value =>
    let i := maxIdxList x value
    some (i.getD (draw % i.length) 0, value)

/-- One pass of the candidate for-loop in `UDOPF.solve` (steps 5-6):
state is (best online configuration, best cost, done flag).  Each
candidate is tried on the stage-best configuration with that candidate
shut down; a successful trial strictly below the running best cost
commits the trial configuration and clears `done`. -/
def trialFold (trial : List Bool → Option ℚ) (stageOnline : List Bool) :
    List ℕ → List Bool × ℚ × Bool → List Bool × ℚ × Bool
  | [], best => best
  | c :: cs, best =>
    let cfg := stageOnline.set c false
    match trial cfg with
    | some f =>
      if f < best.2.1 then trialFold trial stageOnline cs (cfg, f, false)
      else trialFold trial stageOnline cs best
    | none => trialFold trial stageOnline cs best

/-- The main decommitment loop of `UDOPF.solve` (steps 3-7), with the OPF
solver abstracted as `trial` (`none` models a non-convergent solve) and
the candidate-selection step abstracted as a function of the stage-best
configuration (in the source the candidates are the online generators
with a rounded-positive `mu_p_min` and positive `p_min`; all theorems
below hold for every candidate function).  Fuel bounds the number of
stages; the source's loop commits at least one further shutdown per
stage, so any fuel at least the number of generators is exact. -/
def udLoop (trial : List Bool → Option ℚ) (cands : List Bool → List ℕ) :
    ℕ → List Bool × ℚ → List Bool × ℚ
  | 0, st => st
  | fuel + 1, st =>
    match cands st.1 with
    | [] => st
    | c :: cs =>
      let r := trialFold trial st.1 (c :: cs) (st.1, st.2, true)
      if r.2.2 then st
      else udLoop trial cands fuel (r.1, r.2.1)

/-- Steps 2-8 of `UDOPF.solve`: baseline solve on the initial online
configuration; failure aborts the whole procedure (`None`), success
enters the main loop with the baseline as current best. -/
def udSolve (trial : List Bool → Option ℚ) (cands : List Bool → List ℕ)
    (fuel : ℕ) (init : List Bool) : Option (List Bool × ℚ) :=
  match trial init with
  | none => none
  | some c => some (udLoop trial cands fuel (init, c))

/-! ### DC OPF formulator (`dc_opf.py`) -/

inductive SolverType
  | linear
  | quadratic
deriving DecidableEq

/-- The Python exceptions the formulation path can raise, one constructor
per raise site (`NotImplementedError` for the mixed cost-model check and
the unimplemented piecewise-linear objective, `ValueError` for multiple
slack buses, and the `IndexError`/size errors of the cost-constraint
builder on degenerate piecewise data). -/
inductive DCOPFError
  | mixedCostModels
  | multipleSlack
  | emptyBuses
  | costBlockSize
  | costSegmentSlope
  | costBlockIndex
  | objectiveNotImplemented
deriving DecidableEq

/-- `_check_cost_model_consistency`: raises when both cost models occur
among the online generators; otherwise selects the linear solver when no
polynomial model occurs and the quadratic solver when no piecewise-linear
model occurs.  (With the two-model type the final fall-through branch of
the source, which keeps the default "linear", is unreachable.) -/
def checkCostModelConsistency (models : List CostModel) :
    Except DCOPFError SolverType :=
  if CostModel.polynomial ∈ models ∧ CostModel.piecewiseLinear ∈ models then
    .error .mixedCostModels
  else if CostModel.polynomial ∉ models then .ok .linear
  else if CostModel.piecewiseLinear ∉ models then .ok .quadratic
  else .ok .linear

/-- Number of piecewise-linear cost variables appended to the decision
vector: `len([g.p_cost for g in generators])` on the linear path, zero on
the quadratic path. -/
def nCost (st : SolverType) (nGen : ℕ) : ℕ :=
  match st with
  | .linear => nGen
  | .quadratic => 0

/-! Matrix helpers: `sparse([A.T, B.T]).T` hstacks blocks row-wise and
`sparse([A, B])` vstacks them (plain list append). -/

/-- Horizontal stacking of two row-lists (rows concatenated pairwise). -/
def hstack (A B : List (List ℚ)) : List (List ℚ) :=
  List.zipWith (fun r s => r ++ s) A B

/-- An all-zero m-by-n block. -/
def zeroMatrix (m n : ℕ) : List (List ℚ) :=
  List.replicate m (List.replicate n 0)

/-- Elementwise negation of a block. -/
def negMatrix (A : List (List ℚ)) : List (List ℚ) :=
  A.map (fun r => r.map Neg.neg)

/-- The n-by-n identity (`spdiag([1.0]*n)`). -/
def eyeMatrix (n : ℕ) : List (List ℚ) :=
  (List.range n).map (fun i => (List.range n).map (fun j => if i = j then 1 else 0))

/-- A single row of width `w` with a one in column `idx`. -/
def unitRow (w idx : ℕ) : List ℚ :=
  (List.range w).map (fun c => if c = idx then (1 : ℚ) else 0)

/-- Dot product of a row with a vector. -/
def dotRow (r v : List ℚ) : ℚ :=
  (List.zipWith (fun a b => a * b) r v).sum

/-- `_build_x`: initial bus voltage phases in radians, generator-bus
supplies, and on the linear path one cost variable per generator of a
generator bus. -/
def buildX (net : Network) (st : SolverType) : List ℚ :=
  let v_phase := net.buses.map (fun v => v.v_phase_guess * mathPi / 180)
  let gBuses := net.buses.filter (fun v => decide (0 < v.generators.length))
  let p_supply := gBuses.map Bus.p_supply
  match st with
  | .linear =>
    v_phase ++ p_supply ++ (gBuses.map (fun v => v.generators.map Generator.p_cost)).flatten
  | .quadratic => v_phase ++ p_supply

/-- Consecutive breakpoint pairs of a piecewise-linear cost curve. -/
def pwlSegments (pts : List (ℚ × ℚ)) : List ((ℚ × ℚ) × ℚ × ℚ) :=
  List.zipWith (fun p q => (p, q)) pts pts.tail

/-- Segment gradient `m = (y2-y1)/(x2-x1)`. -/
def segSlope (s : (ℚ × ℚ) × ℚ × ℚ) : ℚ :=
  (s.2.2 - s.1.2) / (s.2.1 - s.1.1)

/-- Segment y-intercept `c = y1 - m*x1`. -/
def segIntercept (s : (ℚ × ℚ) × ℚ × ℚ) : ℚ :=
  s.1.2 - segSlope s * s.1.1

/-- All cost segments of all generators in loop order, each tagged with
the index of its generator. -/
def genSegments (gens : List Generator) : List (ℕ × ((ℚ × ℚ) × ℚ × ℚ)) :=
  (gens.enum.map (fun p =>
    (pwlSegments p.2.pwl_points).map (fun s => (p.1, s)))).flatten

/-- `_build_cost_constraint`.  Quadratic path: an empty block.  Linear
path: one row per cost segment carrying the gradient `m` in its
generator's power column, the final assignment
`a_cost[:, n_buses+n_generators:] = -1` filling every cost column of
every row with -1, and the right-hand side `b_cost` of length `n_cost`
holding `-c` for each written segment (zero beyond).  The error cases
model, in place of the source's runtime exceptions on degenerate
piecewise data: an empty breakpoint list (negative segment count in the
size computation), a repeated breakpoint abscissa (`ZeroDivisionError`
in the gradient), and more segments than cost variables (`IndexError`
writing `b_cost`). -/
def buildCostConstraint (net : Network) (st : SolverType) :
    Except DCOPFError (List (List ℚ) × List ℚ) :=
  match st with
  | .quadratic => .ok ([], [])
  | .linear =>
    let gens := net.online_generators
    let nB := net.buses.length
    let nG := gens.length
    let nCC := (gens.map (fun g => g.pwl_points.length - 1)).sum
    if gens.any (fun g => g.pwl_points.isEmpty) then .error .costBlockSize
    else if (genSegments gens).any (fun s => decide (s.2.2.1 - s.2.1.1 = 0)) then
      .error .costSegmentSlope
    else if nG < nCC then .error .costBlockIndex
    else
      .ok ((genSegments gens).map (fun s =>
             (List.range (nB + nG)).map (fun c => if c = nB + s.1 then segSlope s.2 else 0)
               ++ List.replicate nG (-1)),
           (List.range nG).map (fun k =>
             match (genSegments gens)[k]? with
             | some s => -(segIntercept s.2)
             | none => 0))

/-- Indices of the slack-flagged connected buses
(`[buses.index(v) for v in buses if v.slack]`). -/
def slackIdxs (net : Network) : List ℕ :=
  (net.buses.enum.filter (fun p => p.2.slack)).map Prod.fst

/-- The reference bus index: the single slack index if one is flagged,
bus 0 if none. -/
def refIndex (net : Network) : ℕ :=
  (slackIdxs net).headD 0

/-- Width of the constraint rows: buses, generators, cost variables. -/
def busWidth (net : Network) (st : SolverType) : ℕ :=
  net.buses.length + net.online_generators.length +
    nCost st net.online_generators.length

/-- `_build_reference_angle_constraint`: `ValueError` when more than one
bus is flagged slack, `IndexError` on an empty bus list, otherwise the
single row `a_ref[0, ref_idx] = 1` with right-hand side the reference
bus's phase guess. -/
def buildReferenceAngleConstraint (net : Network) (st : SolverType) :
    Except DCOPFError (List (List ℚ) × List ℚ) :=
  if 1 < (slackIdxs net).length then .error .multipleSlack
  else if net.buses.isEmpty then .error .emptyBuses
  else .ok ([unitRow (busWidth net st) (refIndex net)],
            [(net.buses.getD (refIndex net) default).v_phase_guess])

/-- The bus-generator incidence matrix of
`_build_active_power_flow_equations`: the double loop sets
`M[i, j] = 1` for the j-th generator in bus-major order when it is
attached to bus i, so row i is one block of ones in the columns of bus
i's generators. -/
def busGenIncidence (net : Network) : List (List ℚ) :=
  (List.range net.buses.length).map (fun i =>
    (net.buses.enum.map (fun p =>
      List.replicate p.2.generators.length (if p.1 = i then (1 : ℚ) else 0))).flatten)

/-- The power-balance coefficient block `[B, -incidence, 0]`. -/
def buildAAMismatch (net : Network) (B : List (List ℚ)) (st : SolverType) :
    List (List ℚ) :=
  hstack (hstack B (negMatrix (busGenIncidence net)))
    (zeroMatrix net.buses.length (nCost st net.online_generators.length))

/-- The power-balance right-hand side
`-(p_demand + g_shunt) - theta_inj_bus`, one entry per connected bus. -/
def buildBBMismatch (net : Network) : List ℚ :=
  List.zipWith (fun b inj => -(b.p_demand + b.g_shunt) - inj)
    net.buses (buildThetaInjBus net)

/-- `_build_generation_limit_constraint`, coefficient side: the negated
identity block stacked above the identity block, each padded with zeros
for the angle and cost variables. -/
def buildAAGeneration (net : Network) (st : SolverType) : List (List ℚ) :=
  let nB := net.buses.length
  let nG := net.online_generators.length
  let w := nCost st nG
  hstack (hstack (zeroMatrix nG nB) (negMatrix (eyeMatrix nG))) (zeroMatrix nG w) ++
  hstack (hstack (zeroMatrix nG nB) (eyeMatrix nG)) (zeroMatrix nG w)

/-- `_build_generation_limit_constraint`, right-hand side:
`-p_min_bid` entries followed by `p_max_bid` entries. -/
def buildBBGeneration (net : Network) : List ℚ :=
  net.online_generators.map (fun g => -g.p_min_bid) ++
  net.online_generators.map (fun g => g.p_max_bid)

/-- `_build_branch_flow_limit_constraint`, coefficient side (computed by
`__call__` but excluded from the assembled inequality system). -/
def buildAAFlow (net : Network) (Bsource : List (List ℚ)) (st : SolverType) :
    List (List ℚ) :=
  let nBr := net.branches.length
  let nG := net.online_generators.length
  let w := nCost st nG
  hstack (hstack Bsource (zeroMatrix nBr nG)) (zeroMatrix nBr w) ++
  hstack (hstack (negMatrix Bsource) (zeroMatrix nBr nG)) (zeroMatrix nBr w)

/-- `_build_branch_flow_limit_constraint`, right-hand side. -/
def buildBBFlow (net : Network) : List ℚ :=
  let inj := buildThetaInjSource net.branches
  List.zipWith (fun e i => e.s_max - i) net.branches inj ++
  List.zipWith (fun e i => e.s_max + i) net.branches inj

/-- `_build_AA_inequality`: only the generator limit block; the branch
flow block is commented out in the source ("no solution when adding this
constraint"). -/
def buildAAInequality (net : Network) (st : SolverType) : List (List ℚ) :=
  buildAAGeneration net st

/-- `_build_bb_inequality`: only the generator limit right-hand side. -/
def buildBBInequality (net : Network) : List ℚ :=
  buildBBGeneration net

/-- The combined equality system as `__call__` assembles it: the cost
constraint check and builders run in source order, then
`_build_AA_equality`/`_build_bb_equality` stack cost block, reference
row and power-balance block.  (This is the state reached before
`_build_h`, which on the linear path raises.) -/
def assembleEqualitySystem (net : Network) (B : List (List ℚ)) :
    Except DCOPFError (List (List ℚ) × List ℚ) :=
  match checkCostModelConsistency (costModels net) with
  | .error e => .error e
  | .ok st =>
    match buildCostConstraint net st with
    | .error e => .error e
    | .ok aCbC =>
      match buildReferenceAngleConstraint net st with
      | .error e => .error e
      | .ok aRbR =>
        .ok (aCbC.1 ++ aRbR.1 ++ buildAAMismatch net B st,
             aCbC.2 ++ aRbR.2 ++ buildBBMismatch net)

/-- `_build_h` and `_build_c`: `NotImplementedError` on the linear path;
on the quadratic path the diagonal Hessian `2*c0*base_mva^2` over the
generator block and the linear term `c1*base_mva` below bus zeros. -/
def buildObjective (net : Network) (st : SolverType) :
    Except DCOPFError (List (List ℚ) × List ℚ) :=
  match st with
  | .linear => .error .objectiveNotImplemented
  | .quadratic =>
    let gens := net.online_generators
    let nB := net.buses.length
    let nG := gens.length
    .ok ((List.range (nB + nG)).map (fun i =>
           (List.range (nB + nG)).map (fun j =>
             if i = j ∧ nB ≤ i then
               2 * (gens.getD (i - nB) default).cost_coeffs.1 * net.base_mva ^ 2
             else 0)),
         List.replicate nB 0 ++ gens.map (fun g => g.cost_coeffs.2.1 * net.base_mva))

/-- Everything `__call__` has built when it reaches the solver. -/
structure Formulation where
  solver_type : SolverType
  x0 : List ℚ
  AA_eq : List (List ℚ)
  bb_eq : List ℚ
  AA_ieq : List (List ℚ)
  bb_ieq : List ℚ
  hh : List (List ℚ)
  cc : List ℚ
deriving DecidableEq

/-- The formulation phase of `__call__`, in source order: susceptance
inputs are parameters (`make_susceptance_matrix` is external), the
injection vectors are pure, and each raising step short-circuits. -/
def dcopfFormulate (net : Network) (B Bsource : List (List ℚ)) :
    Except DCOPFError Formulation :=
  match checkCostModelConsistency (costModels net) with
  | .error e => .error e
  | .ok st =>
    match buildCostConstraint net st with
    | .error e => .error e
    | .ok aCbC =>
      match buildReferenceAngleConstraint net st with
      | .error e => .error e
      | .ok aRbR =>
        match buildObjective net st with
        | .error e => .error e
        | .ok hhcc =>
          let _flowA := buildAAFlow net Bsource st
          let _flowB := buildBBFlow net
          .ok ⟨st, buildX net st,
               aCbC.1 ++ aRbR.1 ++ buildAAMismatch net B st,
               aCbC.2 ++ aRbR.2 ++ buildBBMismatch net,
               buildAAInequality net st,
               buildBBInequality net,
               hhcc.1, hhcc.2⟩

/-- A cvxopt `qp` result: status string and the primal/dual vectors the
update step reads. -/
structure QPSolution where
  status : String
  xs : List ℚ
  ys : List ℚ
  zs : List ℚ
deriving DecidableEq

/-- The generator updates of `_update_solution_data`, threading the
global (bus-major) generator index `k`. -/
def updateGensFrom (sol : QPSolution) (base_mva : ℚ) (nB nG : ℕ) :
    ℕ → List Generator → List Generator
  | _, [] => []
  | k, g :: gs =>
    ⟨g.cost_model, g.p_min_bid, g.p_max_bid, g.p_cost, g.pwl_points, g.cost_coeffs,
     sol.xs.getD (nB + k) 0, sol.xs.getD (nB + k) 0,
     sol.zs.getD k 0 / base_mva, sol.zs.getD (k + nG) 0 / base_mva, 0, 0⟩ ::
    updateGensFrom sol base_mva nB nG (k + 1) gs

/-- The bus updates of `_update_solution_data`: amplitude fixed at 1,
phase from the solution, price from the equality dual `y[i+1]`, zeroed
reactive and voltage-bound multipliers; generators updated in place. -/
def updateBusesFrom (sol : QPSolution) (base_mva : ℚ) (nB nG : ℕ) :
    ℕ → ℕ → List Bus → List Bus
  | _, _, [] => []
  | i, k, b :: bs =>
    ⟨b.v_phase_guess, b.p_supply, b.p_demand, b.g_shunt, b.slack,
     updateGensFrom sol base_mva nB nG k b.generators,
     1, (sol.xs.take nB).getD i 0,
     sol.ys.getD (i + 1) 0 / base_mva, 0, 0, 0⟩ ::
    updateBusesFrom sol base_mva nB nG (i + 1) (k + b.generators.length) bs

/-- The branch updates of `_update_solution_data`:
`p_source = (B_source * v_phase)[j] * base_mva`, its negation at the
target end, zero reactive flows and flow multipliers. -/
def updateBranches (Bsource : List (List ℚ)) (v_phase : List ℚ)
    (base_mva : ℚ) (branches : List Branch) : List Branch :=
  branches.enum.map (fun p =>
    let ps := dotRow (Bsource.getD p.1 []) v_phase * base_mva
    ⟨p.2.source_bus, p.2.target_bus, p.2.x, p.2.phase_shift, p.2.s_max,
     ps, -ps, 0, 0, 0, 0⟩)

/-- `_update_solution_data` on the network model.  (The source also
zeroes the multipliers of offline branches and generators; the embedded
network carries only the online entities.) -/
def updateSolutionData (net : Network) (Bsource : List (List ℚ))
    (sol : QPSolution) : Network :=
  let nB := net.buses.length
  let nG := net.online_generators.length
  ⟨net.base_mva,
   updateBusesFrom sol net.base_mva nB nG 0 0 net.buses,
   updateBranches Bsource (sol.xs.take nB) net.base_mva net.branches⟩

/-- `__call__` around the solver: formulate, obtain the solver's
solution, and write it onto the network model only when the status is
"optimal".  The solver itself is a parameter. -/
def dcopfCall (net : Network) (B Bsource : List (List ℚ))
    (qpSolver : Formulation → QPSolution) :
    Except DCOPFError (QPSolution × Network) :=
  match dcopfFormulate net B Bsource with
  | .error e => .error e
  | .ok fm =>
    let sol := qpSolver fm
    if sol.status = "optimal" then .ok (sol, updateSolutionData net Bsource sol)
    else .ok (sol, net)

/-! ### Interior point engine preprocessing (`pdipm.py`) -/

/-- The machine epsilon constant `EPS = 2**-52` of `pdipm.py`, as an
exact rational. -/
def EPS : ℚ := 1 / 4503599627370496

/-- The finiteness threshold `1e10` the row partition compares bounds
against. -/
def bigBound : ℚ := 10000000000

/-- A margin (`1e9`) under which a bound is unambiguously finite for the
partition's threshold tests; used only in theorem hypotheses. -/
def smallBound : ℚ := 1000000000

/-- The merged lower bounds `ll = matrix([xmin, l])` after the variable
box bounds are stacked on the linear rows. -/
def mergedLL (xmin l : List ℚ) : List ℚ := xmin ++ l

/-- The merged upper bounds `uu = matrix([xmax, u])`. -/
def mergedUU (xmax u : List ℚ) : List ℚ := xmax ++ u

/-- `ieq`: rows whose bound gap is below `EPS`, treated as equalities. -/
def ieqIdxs (ll uu : List ℚ) : List ℕ :=
  (List.range ll.length).filter (fun j => decide (|uu.getD j 0 - ll.getD j 0| < EPS))

/-- `igt`: rows with only a finite lower bound
(`uu[j] >= 1e10 and ll[j] > -1e10`), negated into "<=" form. -/
def igtIdxs (ll uu : List ℚ) : List ℕ :=
  (List.range ll.length).filter (fun j =>
    decide (bigBound ≤ uu.getD j 0 ∧ -bigBound < ll.getD j 0))

/-- `ilt`: rows with only a finite upper bound
(`ll[j] <= -1e10 and uu[j] < 1e10`). -/
def iltIdxs (ll uu : List ℚ) : List ℕ :=
  (List.range ll.length).filter (fun j =>
    decide (uu.getD j 0 < bigBound ∧ ll.getD j 0 ≤ -bigBound))

/-- `ibx`: doubly bounded rows with distinct bounds, yielding two
one-sided inequalities. -/
def ibxIdxs (ll uu : List ℚ) : List ℕ :=
  (List.range ll.length).filter (fun j =>
    decide (EPS < |uu.getD j 0 - ll.getD j 0| ∧
            uu.getD j 0 < bigBound ∧ -bigBound < ll.getD j 0))

/-- How many of the four partition classes contain row `j`. -/
def classCount (ll uu : List ℚ) (j : ℕ) : ℕ :=
  (if j ∈ ieqIdxs ll uu then 1 else 0) + (if j ∈ igtIdxs ll uu then 1 else 0) +
  (if j ∈ iltIdxs ll uu then 1 else 0) + (if j ∈ ibxIdxs ll uu then 1 else 0)

/-! ### Concrete data used by the witnesses -/

/-- A polynomial-cost generator with bounds [2, 30] and cost
coefficients (1, 10, 0). -/
def exGen : Generator :=
  ⟨CostModel.polynomial, 2, 30, 0, [], (1, 10, 0), 0, 0, 0, 0, 0, 0⟩

/-- A single non-slack bus carrying `exGen`, demand 5, shunt 2, phase
guess 7. -/
def exBus : Bus := ⟨7, 0, 5, 2, false, [exGen], 0, 0, 0, 0, 0, 0⟩

/-- A one-bus, one-generator, branchless network (quadratic path). -/
def exNet : Network := ⟨100, [exBus], []⟩

/-- A second bus, flagged slack, with no generators. -/
def exSlackBus : Bus := ⟨3, 0, 1, 0, true, [], 0, 0, 0, 0, 0, 0⟩

/-- A two-bus network whose second bus is the unique slack bus. -/
def exNet2 : Network := ⟨100, [exBus, exSlackBus], []⟩

/-- A branch with reactance 2 and a 180 degree phase shift. -/
def exBranch : Branch := ⟨0, 1, 2, 180, 90, 0, 0, 0, 0, 0, 0⟩

/-- A solver stub that always reports an unknown (non-optimal) status. -/
def exUnknownSolver : Formulation → QPSolution :=
  fun _ => ⟨"unknown", [], [], []⟩

/-- A trial oracle for the decommitment witnesses: the all-online pair
converges at cost 9, every other configuration fails to converge. -/
def exTrial : List Bool → Option ℚ :=
  fun cfg => if cfg = [true, true] then some 9 else none

/-- A trial oracle whose single-shutdown configuration improves the
baseline cost. -/
def exTrialImproving : List Bool → Option ℚ :=
  fun cfg => if cfg = [false] then some 5 else some 10

/-- A candidate function always proposing generator 0. -/
def exCands : List Bool → List ℕ := fun _ => [0]

/-- Per-row form of the four partition predicates of `pdipm`, used to
separate the arithmetic of the partition from the index bookkeeping. -/
def rowClassCount (a b : ℚ) : ℕ :=
  (if |b - a| < EPS then 1 else 0) +
  (if bigBound ≤ b ∧ -bigBound < a then 1 else 0) +
  (if b < bigBound ∧ a ≤ -bigBound then 1 else 0) +
  (if EPS < |b - a| ∧ b < bigBound ∧ -bigBound < a then 1 else 0)

/-! ### Helper lemmas -/

theorem getElem?_eq_some_getD {α : Type} {l : List α} {i : ℕ} (d : α)
    (h : i < l.length) : l[i]? = some (l.getD i d) := by
  simp [List.getD_eq_getElem?_getD, List.getElem?_eq_getElem h]

theorem hstack_getElem?_eq {A B : List (List ℚ)} {i : ℕ} {ra rb : List ℚ}
    (hA : A[i]? = some ra) (hB : B[i]? = some rb) :
    (hstack A B)[i]? = some (ra ++ rb) := by
  rw [hstack, List.getElem?_zipWith, hA, hB]

theorem zeroMatrix_getElem? {m n i : ℕ} (h : i < m) :
    (zeroMatrix m n)[i]? = some (List.replicate n 0) := by
  simp [zeroMatrix, List.getElem?_replicate, h]

theorem eyeMatrix_getElem? {n k : ℕ} (h : k < n) :
    (eyeMatrix n)[k]? =
      some ((List.range n).map (fun j => if k = j then (1 : ℚ) else 0)) := by
  rw [eyeMatrix, List.getElem?_map, List.getElem?_range h]
  rfl

theorem negMatrix_getElem? {A : List (List ℚ)} {k : ℕ} {r : List ℚ}
    (h : A[k]? = some r) : (negMatrix A)[k]? = some (r.map Neg.neg) := by
  rw [negMatrix, List.getElem?_map, h]
  rfl

theorem negEyeRow (n k : ℕ) :
    ((List.range n).map (fun j => if k = j then (1 : ℚ) else 0)).map Neg.neg =
      (List.range n).map (fun j => if k = j then (-1 : ℚ) else 0) := by
  rw [List.map_map]
  refine List.map_congr_left ?_
  intro j _
  by_cases hj : k = j <;> simp [hj]

theorem hstack3_length {A B C : List (List ℚ)} {n : ℕ}
    (hA : A.length = n) (hB : B.length = n) (hC : C.length = n) :
    (hstack (hstack A B) C).length = n := by
  simp [hstack, List.length_zipWith, hA, hB, hC]

theorem hstack3_getElem? {A B C : List (List ℚ)} {i : ℕ} {ra rb rc : List ℚ}
    (hA : A[i]? = some ra) (hB : B[i]? = some rb) (hC : C[i]? = some rc) :
    (hstack (hstack A B) C)[i]? = some (ra ++ rb ++ rc) :=
  hstack_getElem?_eq (hstack_getElem?_eq hA hB) hC

/-! ### Claims about `fair_max` (C3) -/

/-- C3: on the tied list `[7, 7]`, `fair_max` returns index 0 whatever
the random draw: the candidate list `[x.index(v) for v in x if v == value]`
repeats the index of the first occurrence of the maximum, so the second
tied maximum (index 1) is never returned, contradicting the documented
uniform tie-break. -/
theorem fair_max_always_first_max (draw : ℕ) :
    fair_max [7, 7] draw = some (0, 7) := by
  show some ((maxIdxList [7, 7] 7).getD
    (draw % (maxIdxList [7, 7] 7).length) 0, 7) = some (0, 7)
  rw [show maxIdxList [7, 7] 7 = [0, 0] from rfl]
  show some (([0, 0] : List ℕ).getD (draw % 2) 0, 7) = some (0, 7)
  rcases Nat.mod_two_eq_zero_or_one draw with h | h <;> rw [h] <;> rfl

/-! ### Claims about the phase shift injection (C4) -/

/-- C4: on a branch with reactance 2 and a 180 degree shift, the source
multiplies the angle by the reactance itself (yielding `-2*pi`), not by
the series susceptance `1/x` the specification prescribes (which yields
`-pi/2`); the two differ. -/
theorem theta_inj_source_uses_reactance :
    buildThetaInjSource [exBranch] = [2 * (-180 * mathPi / 180)] ∧
    specThetaInjSource [exBranch] = [-(1 / 2) * (180 * mathPi / 180)] ∧
    buildThetaInjSource [exBranch] ≠ specThetaInjSource [exBranch] := by
  refine ⟨?_, ?_, ?_⟩
  · norm_num [buildThetaInjSource, susceptanceList, exBranch, mathPi]
  · norm_num [specThetaInjSource, exBranch, mathPi]
  · norm_num [buildThetaInjSource, specThetaInjSource, susceptanceList, exBranch, mathPi]

/-! ### Claims about the unit decommitment driver (C6, C7) -/

/-- Invariants of one candidate pass: the tracked best cost never
increases, a changed configuration implies a strict decrease, and a
cleared done flag implies a strict decrease. -/
theorem trialFold_spec (trial : List Bool → Option ℚ) (s : List Bool) :
    ∀ (cl : List ℕ) (best : List Bool × ℚ × Bool),
      (trialFold trial s cl best).2.1 ≤ best.2.1 ∧
      ((trialFold trial s cl best).1 ≠ best.1 →
        (trialFold trial s cl best).2.1 < best.2.1) ∧
      (best.2.2 = true → (trialFold trial s cl best).2.2 = false →
        (trialFold trial s cl best).2.1 < best.2.1) := by
  intro cl
  induction cl with
  | nil =>
    intro best
    refine ⟨le_refl _, fun h => absurd rfl h, fun h1 h2 => ?_⟩
    rw [show trialFold trial s [] best = best from rfl] at h2
    rw [h1] at h2
    exact Bool.noConfusion h2
  | cons c cs ih =>
    intro best
    cases htr : trial (s.set c false) with
    | none =>
      simp only [trialFold, htr]
      exact ih best
    | some f =>
      by_cases hf : f < best.2.1
      · simp only [trialFold, htr, if_pos hf]
        have h3 := ih (s.set c false, f, false)
        exact ⟨le_trans h3.1 (le_of_lt hf), fun _ => lt_of_le_of_lt h3.1 hf,
               fun _ _ => lt_of_le_of_lt h3.1 hf⟩
      · simp only [trialFold, htr, if_neg hf]
        exact ih best

/-- C6: across the main decommitment loop the tracked best cost is
non-increasing, and a final configuration different from the starting
one implies a strictly lower cost (configurations are committed only on
a successful trial strictly below the current best). -/
theorem ud_best_cost_nonincreasing (trial : List Bool → Option ℚ)
    (cands : List Bool → List ℕ) (fuel : ℕ) (st : List Bool × ℚ) :
    (udLoop trial cands fuel st).2 ≤ st.2 ∧
    ((udLoop trial cands fuel st).1 ≠ st.1 →
      (udLoop trial cands fuel st).2 < st.2) := by
  induction fuel generalizing st with
  | zero => exact ⟨le_refl _, fun h => absurd rfl h⟩
  | succ n ih =>
    cases hc : cands st.1 with
    | nil =>
      simp only [udLoop, hc]
      exact ⟨le_refl _, fun h => absurd rfl h⟩
    | cons c cs =>
      simp only [udLoop, hc]
      by_cases hdone : (trialFold trial st.1 (c :: cs) (st.1, st.2, true)).2.2 = true
      · rw [if_pos hdone]
        exact ⟨le_refl _, fun h => absurd rfl h⟩
      · have hb : (trialFold trial st.1 (c :: cs) (st.1, st.2, true)).2.2 = false :=
          Bool.eq_false_iff.mpr hdone
        rw [if_neg (by simp [hb])]
        have hstep := (trialFold_spec trial st.1 (c :: cs) (st.1, st.2, true)).2.2 rfl hb
        have hrec := ih ((trialFold trial st.1 (c :: cs) (st.1, st.2, true)).1,
                         (trialFold trial st.1 (c :: cs) (st.1, st.2, true)).2.1)
        exact ⟨le_trans hrec.1 (le_of_lt hstep),
               fun _ => lt_of_le_of_lt hrec.1 hstep⟩

/-- Witness for C6 on a concrete improving trial oracle. -/
theorem ud_best_cost_nonincreasing_witness :
    (udLoop exTrialImproving exCands 2 ([true], 10)).2 ≤ ([true], (10 : ℚ)).2 ∧
    ((udLoop exTrialImproving exCands 2 ([true], 10)).1 ≠ ([true], (10 : ℚ)).1 →
      (udLoop exTrialImproving exCands 2 ([true], 10)).2 < ([true], (10 : ℚ)).2) :=
  ud_best_cost_nonincreasing exTrialImproving exCands 2 ([true], 10)

/-- C7: the driver returns the failure result exactly when the baseline
solve does not converge (the main loop is never entered), and whenever
the baseline converges it returns a successful result for every
behaviour of the trial oracle on the other configurations, so candidate
non-convergence inside the loop never aborts the procedure. -/
theorem ud_baseline_gate (trial : List Bool → Option ℚ)
    (cands : List Bool → List ℕ) (fuel : ℕ) (init : List Bool) :
    (trial init = none → udSolve trial cands fuel init = none) ∧
    (∀ c, trial init = some c →
      udSolve trial cands fuel init = some (udLoop trial cands fuel (init, c))) := by
  constructor
  · intro h
    simp [udSolve, h]
  · intro c h
    simp [udSolve, h]

/-- Witness for C7: the oracle converges only on the baseline pair; the
procedure still succeeds although every in-loop trial fails. -/
theorem ud_baseline_gate_witness :
    (exTrial [true, true] = none → udSolve exTrial exCands 3 [true, true] = none) ∧
    (∀ c, exTrial [true, true] = some c →
      udSolve exTrial exCands 3 [true, true] =
        some (udLoop exTrial exCands 3 ([true, true], c))) :=
  ud_baseline_gate exTrial exCands 3 [true, true]

/-! ### Claims about the inequality system (C2) -/

/-- C2: the assembled inequality system is exactly the generator limit
block: row k is `[0 | -I | 0]` with right-hand side `-p_min_bid`, row
`nG + k` is `[0 | I | 0]` with right-hand side `p_max_bid`, and there are
exactly `2*nG` rows, so the computed branch flow block is never
included. -/
theorem dcopf_inequality_generation_only (net : Network) (st : SolverType) :
    buildAAInequality net st = buildAAGeneration net st ∧
    buildBBInequality net = buildBBGeneration net ∧
    (buildAAInequality net st).length = 2 * net.online_generators.length ∧
    (buildBBInequality net).length = 2 * net.online_generators.length ∧
    (∀ k, k < net.online_generators.length →
      (buildAAInequality net st)[k]? =
        some (List.replicate net.buses.length (0 : ℚ) ++
          (List.range net.online_generators.length).map
            (fun j => if k = j then (-1 : ℚ) else 0) ++
          List.replicate (nCost st net.online_generators.length) (0 : ℚ)) ∧
      (buildAAInequality net st)[net.online_generators.length + k]? =
        some (List.replicate net.buses.length (0 : ℚ) ++
          (List.range net.online_generators.length).map
            (fun j => if k = j then (1 : ℚ) else 0) ++
          List.replicate (nCost st net.online_generators.length) (0 : ℚ)) ∧
      (buildBBInequality net)[k]? =
        some (-(net.online_generators.getD k default).p_min_bid) ∧
      (buildBBInequality net)[net.online_generators.length + k]? =
        some ((net.online_generators.getD k default).p_max_bid)) := by
  refine ⟨rfl, rfl, ?_, ?_, ?_⟩
  · simp [buildAAInequality, buildAAGeneration, hstack, List.length_zipWith,
      zeroMatrix, negMatrix, eyeMatrix, two_mul]
  · simp [buildBBInequality, buildBBGeneration, two_mul]
  · intro k hk
    have hzB : (zeroMatrix net.online_generators.length net.buses.length)[k]? =
        some (List.replicate net.buses.length (0 : ℚ)) := zeroMatrix_getElem? hk
    have hzW : (zeroMatrix net.online_generators.length
        (nCost st net.online_generators.length))[k]? =
        some (List.replicate (nCost st net.online_generators.length) (0 : ℚ)) :=
      zeroMatrix_getElem? hk
    have hneg : (negMatrix (eyeMatrix net.online_generators.length))[k]? =
        some ((List.range net.online_generators.length).map
          (fun j => if k = j then (-1 : ℚ) else 0)) := by
      rw [negMatrix_getElem? (eyeMatrix_getElem? hk), negEyeRow]
    have heye := eyeMatrix_getElem? (n := net.online_generators.length) hk
    have hlowrow := hstack3_getElem? hzB hneg hzW
    have huprow := hstack3_getElem? hzB heye hzW
    have hlowlen : (hstack (hstack
        (zeroMatrix net.online_generators.length net.buses.length)
        (negMatrix (eyeMatrix net.online_generators.length)))
        (zeroMatrix net.online_generators.length
          (nCost st net.online_generators.length))).length =
        net.online_generators.length :=
      hstack3_length (by simp [zeroMatrix]) (by simp [negMatrix, eyeMatrix])
        (by simp [zeroMatrix])
    refine ⟨?_, ?_, ?_, ?_⟩
    · show (buildAAGeneration net st)[k]? = _
      simp only [buildAAGeneration]
      rw [List.getElem?_append_left (hlowlen.symm ▸ hk)]
      exact hlowrow
    · show (buildAAGeneration net st)[net.online_generators.length + k]? = _
      simp only [buildAAGeneration]
      rw [List.getElem?_append_right (by rw [hlowlen]; exact Nat.le_add_right _ _)]
      rw [hlowlen, Nat.add_sub_cancel_left]
      exact huprow
    · show (buildBBGeneration net)[k]? = _
      simp only [buildBBGeneration]
      rw [List.getElem?_append_left (by simpa using hk)]
      rw [List.getElem?_map, getElem?_eq_some_getD default hk]
      rfl
    · show (buildBBGeneration net)[net.online_generators.length + k]? = _
      simp only [buildBBGeneration]
      rw [List.getElem?_append_right
        (by simp only [List.length_map]
            exact Nat.le_add_right net.online_generators.length k)]
      rw [List.length_map, Nat.add_sub_cancel_left, List.getElem?_map,
        getElem?_eq_some_getD default hk]
      rfl

/-- Witness for C2 on the one-generator network. -/
theorem dcopf_inequality_generation_only_witness :
    buildAAInequality exNet .quadratic = buildAAGeneration exNet .quadratic ∧
    buildBBInequality exNet = buildBBGeneration exNet ∧
    (buildAAInequality exNet .quadratic).length = 2 * exNet.online_generators.length ∧
    (buildBBInequality exNet).length = 2 * exNet.online_generators.length ∧
    (∀ k, k < exNet.online_generators.length →
      (buildAAInequality exNet .quadratic)[k]? =
        some (List.replicate exNet.buses.length (0 : ℚ) ++
          (List.range exNet.online_generators.length).map
            (fun j => if k = j then (-1 : ℚ) else 0) ++
          List.replicate (nCost .quadratic exNet.online_generators.length) (0 : ℚ)) ∧
      (buildAAInequality exNet .quadratic)[exNet.online_generators.length + k]? =
        some (List.replicate exNet.buses.length (0 : ℚ) ++
          (List.range exNet.online_generators.length).map
            (fun j => if k = j then (1 : ℚ) else 0) ++
          List.replicate (nCost .quadratic exNet.online_generators.length) (0 : ℚ)) ∧
      (buildBBInequality exNet)[k]? =
        some (-(exNet.online_generators.getD k default).p_min_bid) ∧
      (buildBBInequality exNet)[exNet.online_generators.length + k]? =
        some ((exNet.online_generators.getD k default).p_max_bid)) :=
  dcopf_inequality_generation_only exNet .quadratic

/-! ### Claims about reference bus selection (C9) -/

theorem slackIdxs_length_aux (l : List Bus) :
    ∀ k, ((List.enumFrom k l).filter (fun p => p.2.slack)).length =
      (l.filter (fun v => v.slack)).length := by
  induction l with
  | nil => intro k; rfl
  | cons b bs ih =>
    intro k
    rw [show List.enumFrom k (b :: bs) = (k, b) :: List.enumFrom (k + 1) bs from rfl]
    rw [List.filter_cons, List.filter_cons]
    by_cases hb : b.slack = true
    · rw [if_pos hb, if_pos hb]
      simp [ih (k + 1)]
    · rw [if_neg hb, if_neg hb]
      exact ih (k + 1)

theorem slackIdxs_length (net : Network) :
    (slackIdxs net).length = (net.buses.filter (fun v => v.slack)).length := by
  rw [slackIdxs, List.length_map,
    show net.buses.enum = List.enumFrom 0 net.buses from rfl]
  exact slackIdxs_length_aux net.buses 0

theorem mem_slack_enumFrom (l : List Bus) :
    ∀ (k i : ℕ),
      (i ∈ ((List.enumFrom k l).filter (fun p => p.2.slack)).map Prod.fst) ↔
      (∃ j, j < l.length ∧ i = k + j ∧ (l.getD j default).slack = true) := by
  induction l with
  | nil =>
    intro k i
    simp [List.enumFrom]
  | cons b bs ih =>
    intro k i
    rw [show List.enumFrom k (b :: bs) = (k, b) :: List.enumFrom (k + 1) bs from rfl]
    rw [List.filter_cons]
    by_cases hb : b.slack = true
    · rw [if_pos hb]
      simp only [List.map_cons, List.mem_cons, ih (k + 1) i]
      constructor
      · rintro (h | ⟨j, hj, hij, hsl⟩)
        · exact ⟨0, by simp, by simpa using h, by simpa using hb⟩
        · exact ⟨j + 1, by simpa using hj, by omega, by simpa using hsl⟩
      · rintro ⟨j, hj, hij, hsl⟩
        cases j with
        | zero =>
          left
          show i = k
          omega
        | succ j =>
          right
          exact ⟨j, by simpa using hj, by omega, by simpa using hsl⟩
    · rw [if_neg hb]
      rw [ih (k + 1) i]
      constructor
      · rintro ⟨j, hj, hij, hsl⟩
        exact ⟨j + 1, by simpa using hj, by omega, by simpa using hsl⟩
      · rintro ⟨j, hj, hij, hsl⟩
        cases j with
        | zero => exact absurd (by simpa using hsl) hb
        | succ j => exact ⟨j, by simpa using hj, by omega, by simpa using hsl⟩

theorem mem_slackIdxs_iff (net : Network) (i : ℕ) :
    i ∈ slackIdxs net ↔
      (i < net.buses.length ∧ (net.buses.getD i default).slack = true) := by
  rw [slackIdxs, show net.buses.enum = List.enumFrom 0 net.buses from rfl,
    mem_slack_enumFrom net.buses 0 i]
  constructor
  · rintro ⟨j, hj, hij, hsl⟩
    have hji : i = j := by omega
    rw [hji]
    exact ⟨hj, hsl⟩
  · rintro ⟨hi, hsl⟩
    exact ⟨i, hi, by omega, hsl⟩

/-- C9: on a nonempty bus list, reference bus selection raises an error
exactly when more than one bus is flagged slack; otherwise it builds the
single reference row for the unique flagged bus, or for bus 0 when no
bus is flagged. -/
theorem reference_bus_selection (net : Network) (st : SolverType)
    (hne : net.buses ≠ []) :
    ((∃ e, buildReferenceAngleConstraint net st = .error e) ↔
      1 < (net.buses.filter (fun v => v.slack)).length) ∧
    ((net.buses.filter (fun v => v.slack)).length ≤ 1 →
      buildReferenceAngleConstraint net st =
        .ok ([unitRow (busWidth net st) (refIndex net)],
             [(net.buses.getD (refIndex net) default).v_phase_guess])) ∧
    ((net.buses.filter (fun v => v.slack)).length = 0 → refIndex net = 0) ∧
    (∀ i, slackIdxs net = [i] →
      refIndex net = i ∧ i < net.buses.length ∧
      (net.buses.getD i default).slack = true) := by
  have hlen := slackIdxs_length net
  have hempt : ¬net.buses.isEmpty = true := by
    simpa [List.isEmpty_iff] using hne
  refine ⟨⟨?_, ?_⟩, ?_, ?_, ?_⟩
  · rintro ⟨e, he⟩
    by_contra hgt
    rw [buildReferenceAngleConstraint,
      if_neg (by rw [hlen]; exact hgt), if_neg hempt] at he
    exact Except.noConfusion he
  · intro hgt
    refine ⟨.multipleSlack, ?_⟩
    rw [buildReferenceAngleConstraint, if_pos (by rw [hlen]; exact hgt)]
  · intro hle
    rw [buildReferenceAngleConstraint,
      if_neg (by rw [hlen]; omega), if_neg hempt]
  · intro h0
    have : slackIdxs net = [] := List.length_eq_zero.mp (by rw [hlen]; exact h0)
    rw [refIndex, this]
    rfl
  · intro i hsl
    have hm : i ∈ slackIdxs net := by
      rw [hsl]
      exact List.mem_singleton_self i
    have hins := (mem_slackIdxs_iff net i).1 hm
    exact ⟨by rw [refIndex, hsl]; rfl, hins.1, hins.2⟩

/-- Witness for C9 on the two-bus network with a unique slack bus. -/
theorem reference_bus_selection_witness :
    ((∃ e, buildReferenceAngleConstraint exNet2 .quadratic = .error e) ↔
      1 < (exNet2.buses.filter (fun v => v.slack)).length) ∧
    ((exNet2.buses.filter (fun v => v.slack)).length ≤ 1 →
      buildReferenceAngleConstraint exNet2 .quadratic =
        .ok ([unitRow (busWidth exNet2 .quadratic) (refIndex exNet2)],
             [(exNet2.buses.getD (refIndex exNet2) default).v_phase_guess])) ∧
    ((exNet2.buses.filter (fun v => v.slack)).length = 0 → refIndex exNet2 = 0) ∧
    (∀ i, slackIdxs exNet2 = [i] →
      refIndex exNet2 = i ∧ i < exNet2.buses.length ∧
      (exNet2.buses.getD i default).slack = true) :=
  reference_bus_selection exNet2 .quadratic (by simp [exNet2])

/-! ### Claims about the combined equality system (C1) -/

/-- C1: whenever the formulation checks pass, the combined equality
system stacks, in order, the cost-epigraph block, the single reference
row, and one power-balance row per connected bus whose coefficient
block is `[B, -incidence, 0]` and whose right-hand side is
`-(p_demand + g_shunt) - theta_inj_bus`. -/
theorem dcopf_equality_stacking (net : Network) (B : List (List ℚ))
    (st : SolverType) (aC aR : List (List ℚ)) (bC bR : List ℚ)
    (hB : B.length = net.buses.length)
    (hchk : checkCostModelConsistency (costModels net) = .ok st)
    (hcost : buildCostConstraint net st = .ok (aC, bC))
    (href : buildReferenceAngleConstraint net st = .ok (aR, bR)) :
    assembleEqualitySystem net B =
      .ok (aC ++ aR ++ buildAAMismatch net B st,
           bC ++ bR ++ buildBBMismatch net) ∧
    aR.length = 1 ∧
    (buildAAMismatch net B st).length = net.buses.length ∧
    (buildBBMismatch net).length = net.buses.length ∧
    (∀ i, i < net.buses.length →
      (buildAAMismatch net B st)[i]? =
        some (B.getD i [] ++
          ((busGenIncidence net).getD i []).map Neg.neg ++
          List.replicate (nCost st net.online_generators.length) (0 : ℚ)) ∧
      (buildBBMismatch net)[i]? =
        some (-((net.buses.getD i default).p_demand +
                (net.buses.getD i default).g_shunt) -
              (buildThetaInjBus net).getD i 0)) := by
  have hIncLen : (busGenIncidence net).length = net.buses.length := by
    simp [busGenIncidence]
  have hInjLen : (buildThetaInjBus net).length = net.buses.length := by
    simp [buildThetaInjBus]
  refine ⟨?_, ?_, ?_, ?_, ?_⟩
  · simp only [assembleEqualitySystem, hchk, hcost, href]
  · rw [buildReferenceAngleConstraint] at href
    split at href
    · exact Except.noConfusion href
    · split at href
      · exact Except.noConfusion href
      · rw [Except.ok.injEq, Prod.mk.injEq] at href
        rw [← href.1]
        rfl
  · show (hstack (hstack B (negMatrix (busGenIncidence net)))
      (zeroMatrix net.buses.length (nCost st net.online_generators.length))).length =
      net.buses.length
    simp [hstack, List.length_zipWith, negMatrix, zeroMatrix, hB, hIncLen]
  · simp [buildBBMismatch, List.length_zipWith, hInjLen]
  · intro i hi
    have hBrow : B[i]? = some (B.getD i []) :=
      getElem?_eq_some_getD [] (hB.symm ▸ hi)
    have hIrow : (busGenIncidence net)[i]? =
        some ((busGenIncidence net).getD i []) :=
      getElem?_eq_some_getD [] (hIncLen.symm ▸ hi)
    have hNrow := negMatrix_getElem? hIrow
    have hZrow := zeroMatrix_getElem?
      (n := nCost st net.online_generators.length) hi
    refine ⟨hstack3_getElem? hBrow hNrow hZrow, ?_⟩
    have hbus : net.buses[i]? = some (net.buses.getD i default) :=
      getElem?_eq_some_getD default hi
    have hinj : (buildThetaInjBus net)[i]? =
        some ((buildThetaInjBus net).getD i 0) :=
      getElem?_eq_some_getD 0 (hInjLen.symm ▸ hi)
    rw [buildBBMismatch, List.getElem?_zipWith, hbus, hinj]

/-- Witness for C1 on the one-bus quadratic-path network. -/
theorem dcopf_equality_stacking_witness :
    assembleEqualitySystem exNet [[3]] =
      .ok (([] : List (List ℚ)) ++
             [unitRow (busWidth exNet SolverType.quadratic) (refIndex exNet)] ++
             buildAAMismatch exNet [[3]] SolverType.quadratic,
           ([] : List ℚ) ++
             [(exNet.buses.getD (refIndex exNet) default).v_phase_guess] ++
             buildBBMismatch exNet) ∧
    ([unitRow (busWidth exNet SolverType.quadratic) (refIndex exNet)] :
      List (List ℚ)).length = 1 ∧
    (buildAAMismatch exNet [[3]] SolverType.quadratic).length = exNet.buses.length ∧
    (buildBBMismatch exNet).length = exNet.buses.length ∧
    (∀ i, i < exNet.buses.length →
      (buildAAMismatch exNet [[3]] SolverType.quadratic)[i]? =
        some (([[3]] : List (List ℚ)).getD i [] ++
          ((busGenIncidence exNet).getD i []).map Neg.neg ++
          List.replicate (nCost SolverType.quadratic
            exNet.online_generators.length) (0 : ℚ)) ∧
      (buildBBMismatch exNet)[i]? =
        some (-((exNet.buses.getD i default).p_demand +
                (exNet.buses.getD i default).g_shunt) -
              (buildThetaInjBus exNet).getD i 0)) :=
  dcopf_equality_stacking exNet [[3]] SolverType.quadratic []
    [unitRow (busWidth exNet SolverType.quadratic) (refIndex exNet)] []
    [(exNet.buses.getD (refIndex exNet) default).v_phase_guess]
    rfl rfl rfl rfl

/-! ### Claims about the mixed cost model error (C8) -/

theorem checkCostModelConsistency_mixed_iff (ms : List CostModel) :
    checkCostModelConsistency ms = .error .mixedCostModels ↔
      (CostModel.polynomial ∈ ms ∧ CostModel.piecewiseLinear ∈ ms) := by
  unfold checkCostModelConsistency
  split
  · next h => simp [h]
  · next h =>
    split
    · simp [h]
    · split <;> simp [h]

theorem buildCostConstraint_no_mixed (net : Network) (st : SolverType) :
    buildCostConstraint net st ≠ .error .mixedCostModels := by
  cases st
  · simp only [buildCostConstraint]
    split
    · simp
    · split
      · simp
      · split <;> simp
  · simp [buildCostConstraint]

theorem buildReferenceAngleConstraint_no_mixed (net : Network) (st : SolverType) :
    buildReferenceAngleConstraint net st ≠ .error .mixedCostModels := by
  simp only [buildReferenceAngleConstraint]
  split
  · simp
  · split <;> simp

theorem buildObjective_no_mixed (net : Network) (st : SolverType) :
    buildObjective net st ≠ .error .mixedCostModels := by
  cases st <;> simp [buildObjective]

theorem dcopfFormulate_mixed_iff (net : Network) (B Bsource : List (List ℚ)) :
    dcopfFormulate net B Bsource = .error .mixedCostModels ↔
      (CostModel.polynomial ∈ costModels net ∧
       CostModel.piecewiseLinear ∈ costModels net) := by
  rw [← checkCostModelConsistency_mixed_iff]
  unfold dcopfFormulate
  split
  · rename_i e heq
    rw [heq]
    constructor
    · intro h
      injection h with he
      rw [he]
    · intro h
      injection h with he
      rw [he]
  · rename_i st heq
    rw [heq]
    constructor
    · intro h
      exfalso
      split at h
      · rename_i e hc
        injection h with he
        exact absurd (he ▸ hc) (buildCostConstraint_no_mixed net st)
      · rename_i aCbC hc
        split at h
        · rename_i e hr
          injection h with he
          exact absurd (he ▸ hr) (buildReferenceAngleConstraint_no_mixed net st)
        · rename_i aRbR hr
          split at h
          · rename_i e ho
            injection h with he
            exact absurd (he ▸ ho) (buildObjective_no_mixed net st)
          · rename_i hhcc ho
            exact Except.noConfusion h
    · intro h
      exact Except.noConfusion h

/-- C8: the DC OPF call fails with the unsupported cost-model-mix error,
for every behaviour of the QP solver (so before any solve is attempted),
exactly when the online generators carry at least one polynomial and at
least one piecewise-linear cost model. -/
theorem dcopf_mixed_cost_model_rejection (net : Network)
    (B Bsource : List (List ℚ)) (qpSolver : Formulation → QPSolution) :
    dcopfCall net B Bsource qpSolver = .error .mixedCostModels ↔
      (CostModel.polynomial ∈ costModels net ∧
       CostModel.piecewiseLinear ∈ costModels net) := by
  rw [← dcopfFormulate_mixed_iff net B Bsource]
  unfold dcopfCall
  cases hf : dcopfFormulate net B Bsource with
  | error e => simp
  | ok fm =>
    constructor
    · intro hmatch
      have h : (if (qpSolver fm).status = "optimal" then
          Except.ok (qpSolver fm, updateSolutionData net Bsource (qpSolver fm))
          else Except.ok (qpSolver fm, net)) =
          Except.error DCOPFError.mixedCostModels := hmatch
      by_cases hs : (qpSolver fm).status = "optimal"
      · rw [if_pos hs] at h
        exact Except.noConfusion h
      · rw [if_neg hs] at h
        exact Except.noConfusion h
    · intro h
      exact Except.noConfusion h

/-! ### Claims about the interior point row partition (C5) -/

theorem classCount_eq_rowClassCount (ll uu : List ℚ) (j : ℕ) (hj : j < ll.length) :
    classCount ll uu j = rowClassCount (ll.getD j 0) (uu.getD j 0) := by
  have h1 : (j ∈ ieqIdxs ll uu) ↔ |uu.getD j 0 - ll.getD j 0| < EPS := by
    simp [ieqIdxs, List.mem_filter, List.mem_range, hj]
  have h2 : (j ∈ igtIdxs ll uu) ↔
      (bigBound ≤ uu.getD j 0 ∧ -bigBound < ll.getD j 0) := by
    simp [igtIdxs, List.mem_filter, List.mem_range, hj]
  have h3 : (j ∈ iltIdxs ll uu) ↔
      (uu.getD j 0 < bigBound ∧ ll.getD j 0 ≤ -bigBound) := by
    simp [iltIdxs, List.mem_filter, List.mem_range, hj]
  have h4 : (j ∈ ibxIdxs ll uu) ↔
      (EPS < |uu.getD j 0 - ll.getD j 0| ∧
       uu.getD j 0 < bigBound ∧ -bigBound < ll.getD j 0) := by
    simp [ibxIdxs, List.mem_filter, List.mem_range, hj]
  simp only [classCount, rowClassCount, h1, h2, h3, h4]

/-- C5 counterexample: the merged row with bounds (-2e10, 2e10) -- a free
row, exactly what the default box bounds of `pdipm` produce for an
unbounded variable once compared against the 1e10 threshold -- falls
into none of the four classes, refuting "every merged row falls into
exactly one of these four classes". -/
theorem pdipm_free_row_in_no_class :
    0 < (mergedLL [-20000000000] []).length ∧
    classCount (mergedLL [-20000000000] []) (mergedUU [20000000000] []) 0 = 0 := by
  refine ⟨by decide, ?_⟩
  rw [classCount_eq_rowClassCount _ _ 0 (by decide)]
  show rowClassCount (-20000000000) 20000000000 = 0
  norm_num [rowClassCount, EPS, bigBound]

theorem rowClassCount_spec (a b : ℚ)
    (hl : |a| < smallBound ∨ a ≤ -bigBound)
    (hu : |b| < smallBound ∨ bigBound ≤ b)
    (hgap : |b - a| ≠ EPS) :
    ((a ≤ -bigBound ∧ bigBound ≤ b) → rowClassCount a b = 0) ∧
    (¬(a ≤ -bigBound ∧ bigBound ≤ b) → rowClassCount a b = 1) := by
  have c1 : (0 : ℚ) < EPS := by norm_num [EPS]
  have c2 : EPS + smallBound < bigBound := by norm_num [EPS, smallBound, bigBound]
  have c3 : smallBound < bigBound := by norm_num [smallBound, bigBound]
  have c4 : EPS < bigBound + bigBound := by norm_num [EPS, bigBound]
  have c5 : (0 : ℚ) < bigBound := by norm_num [bigBound]
  rcases hl with hl | hl <;> rcases hu with hu | hu
  · have ha := abs_lt.mp hl
    have hb := abs_lt.mp hu
    constructor
    · rintro ⟨h1, _⟩
      exfalso
      linarith [ha.1]
    · intro _
      rcases lt_or_gt_of_ne hgap with hlt | hgt
      · have e1 : (if |b - a| < EPS then (1 : ℕ) else 0) = 1 := if_pos hlt
        have e2 : (if bigBound ≤ b ∧ -bigBound < a then (1 : ℕ) else 0) = 0 :=
          if_neg (by rintro ⟨hx, _⟩; linarith [hb.2])
        have e3 : (if b < bigBound ∧ a ≤ -bigBound then (1 : ℕ) else 0) = 0 :=
          if_neg (by rintro ⟨_, hx⟩; linarith [ha.1])
        have e4 : (if EPS < |b - a| ∧ b < bigBound ∧ -bigBound < a then (1 : ℕ)
            else 0) = 0 :=
          if_neg (by rintro ⟨hx, _⟩; linarith)
        rw [rowClassCount, e1, e2, e3, e4]
      · have e1 : (if |b - a| < EPS then (1 : ℕ) else 0) = 0 :=
          if_neg (by intro hx; linarith)
        have e2 : (if bigBound ≤ b ∧ -bigBound < a then (1 : ℕ) else 0) = 0 :=
          if_neg (by rintro ⟨hx, _⟩; linarith [hb.2])
        have e3 : (if b < bigBound ∧ a ≤ -bigBound then (1 : ℕ) else 0) = 0 :=
          if_neg (by rintro ⟨_, hx⟩; linarith [ha.1])
        have e4 : (if EPS < |b - a| ∧ b < bigBound ∧ -bigBound < a then (1 : ℕ)
            else 0) = 1 :=
          if_pos ⟨hgt, by linarith [hb.2], by linarith [ha.1]⟩
        rw [rowClassCount, e1, e2, e3, e4]
  · have ha := abs_lt.mp hl
    have habs : |b - a| = b - a := abs_of_pos (by linarith [ha.2])
    constructor
    · rintro ⟨h1, _⟩
      exfalso
      linarith [ha.1]
    · intro _
      have e1 : (if |b - a| < EPS then (1 : ℕ) else 0) = 0 :=
        if_neg (by rw [habs]; intro hx; linarith [ha.2])
      have e2 : (if bigBound ≤ b ∧ -bigBound < a then (1 : ℕ) else 0) = 1 :=
        if_pos ⟨hu, by linarith [ha.1]⟩
      have e3 : (if b < bigBound ∧ a ≤ -bigBound then (1 : ℕ) else 0) = 0 :=
        if_neg (by rintro ⟨hx, _⟩; linarith)
      have e4 : (if EPS < |b - a| ∧ b < bigBound ∧ -bigBound < a then (1 : ℕ)
          else 0) = 0 :=
        if_neg (by rintro ⟨_, hx, _⟩; linarith)
      rw [rowClassCount, e1, e2, e3, e4]
  · have hb := abs_lt.mp hu
    have habs : |b - a| = b - a := abs_of_pos (by linarith [hb.1])
    constructor
    · rintro ⟨_, h2⟩
      exfalso
      linarith [hb.2]
    · intro _
      have e1 : (if |b - a| < EPS then (1 : ℕ) else 0) = 0 :=
        if_neg (by rw [habs]; intro hx; linarith [hb.1])
      have e2 : (if bigBound ≤ b ∧ -bigBound < a then (1 : ℕ) else 0) = 0 :=
        if_neg (by rintro ⟨hx, _⟩; linarith [hb.2])
      have e3 : (if b < bigBound ∧ a ≤ -bigBound then (1 : ℕ) else 0) = 1 :=
        if_pos ⟨by linarith [hb.2], hl⟩
      have e4 : (if EPS < |b - a| ∧ b < bigBound ∧ -bigBound < a then (1 : ℕ)
          else 0) = 0 :=
        if_neg (by rintro ⟨_, _, hx⟩; linarith)
      rw [rowClassCount, e1, e2, e3, e4]
  · constructor
    · intro _
      have habs : |b - a| = b - a := abs_of_pos (by linarith)
      have e1 : (if |b - a| < EPS then (1 : ℕ) else 0) = 0 :=
        if_neg (by rw [habs]; intro hx; linarith)
      have e2 : (if bigBound ≤ b ∧ -bigBound < a then (1 : ℕ) else 0) = 0 :=
        if_neg (by rintro ⟨_, hx⟩; linarith)
      have e3 : (if b < bigBound ∧ a ≤ -bigBound then (1 : ℕ) else 0) = 0 :=
        if_neg (by rintro ⟨hx, _⟩; linarith)
      have e4 : (if EPS < |b - a| ∧ b < bigBound ∧ -bigBound < a then (1 : ℕ)
          else 0) = 0 :=
        if_neg (by rintro ⟨_, hx, _⟩; linarith)
      rw [rowClassCount, e1, e2, e3, e4]
    · intro hn
      exact absurd ⟨hl, hu⟩ hn

/-- C5 (amended): a merged row whose bounds are each either genuinely
finite (absolute value under 1e9) or infinite (at or beyond the 1e10
threshold), with gap different from EPS, falls into exactly one of the
four classes when at least one bound is finite, and into none of them
(the row is dropped as unconstrained) when both bounds are infinite. -/
theorem pdipm_row_partition_amended (ll uu : List ℚ) (j : ℕ)
    (hj : j < ll.length)
    (hl : |ll.getD j 0| < smallBound ∨ ll.getD j 0 ≤ -bigBound)
    (hu : |uu.getD j 0| < smallBound ∨ bigBound ≤ uu.getD j 0)
    (hgap : |uu.getD j 0 - ll.getD j 0| ≠ EPS) :
    ((ll.getD j 0 ≤ -bigBound ∧ bigBound ≤ uu.getD j 0) →
      classCount ll uu j = 0) ∧
    (¬(ll.getD j 0 ≤ -bigBound ∧ bigBound ≤ uu.getD j 0) →
      classCount ll uu j = 1) := by
  rw [classCount_eq_rowClassCount ll uu j hj]
  exact rowClassCount_spec _ _ hl hu hgap

/-- Witness for the amended C5 on the doubly bounded row (0, 5). -/
theorem pdipm_row_partition_amended_witness :
    ((([(0 : ℚ)]).getD 0 0 ≤ -bigBound ∧ bigBound ≤ ([(5 : ℚ)]).getD 0 0) →
      classCount [0] [5] 0 = 0) ∧
    (¬(([(0 : ℚ)]).getD 0 0 ≤ -bigBound ∧ bigBound ≤ ([(5 : ℚ)]).getD 0 0) →
      classCount [0] [5] 0 = 1) :=
  pdipm_row_partition_amended [0] [5] 0 (by decide)
    (Or.inl (by show |(0 : ℚ)| < smallBound; norm_num [smallBound]))
    (Or.inl (by show |(5 : ℚ)| < smallBound; norm_num [smallBound]))
    (by show |(5 : ℚ) - 0| ≠ EPS; norm_num [EPS])

/-! ### Claims about result write-back (C10) -/

/-- C10: whenever the QP solver reports any status other than "optimal",
the DC OPF call returns the network model unchanged; result fields are
written only on optimal status. -/
theorem dcopf_network_unchanged_without_optimal (net : Network)
    (B Bsource : List (List ℚ)) (qpSolver : Formulation → QPSolution)
    (sol : QPSolution) (net2 : Network)
    (hres : dcopfCall net B Bsource qpSolver = .ok (sol, net2))
    (hstatus : sol.status ≠ "optimal") :
    net2 = net := by
  rw [dcopfCall] at hres
  cases hf : dcopfFormulate net B Bsource with
  | error e =>
    rw [hf] at hres
    exact Except.noConfusion hres
  | ok fm =>
    rw [hf] at hres
    have h : (if (qpSolver fm).status = "optimal" then
        Except.ok (qpSolver fm, updateSolutionData net Bsource (qpSolver fm))
        else Except.ok (qpSolver fm, net)) = Except.ok (sol, net2) := hres
    by_cases hs : (qpSolver fm).status = "optimal"
    · rw [if_pos hs] at h
      rw [Except.ok.injEq, Prod.mk.injEq] at h
      exact absurd (h.1 ▸ hs) hstatus
    · rw [if_neg hs] at h
      rw [Except.ok.injEq, Prod.mk.injEq] at h
      exact h.2.symm

/-- Witness for C10: a solver stub returning the unknown status leaves
the one-bus network untouched. -/
theorem dcopf_network_unchanged_without_optimal_witness :
    ((⟨"unknown", [], [], []⟩ : QPSolution).status ≠ "optimal") ∧ exNet = exNet :=
  ⟨by decide,
   dcopf_network_unchanged_without_optimal exNet [[3]] [] exUnknownSolver
     ⟨"unknown", [], [], []⟩ exNet rfl (by decide)⟩

end Pylon
